import Mathlib

/-!
Shallow embedding of the Sequelize policy-storage adapter
(`src/src/adapter.ts`) and proofs about its behavioral contract.

The database table is modelled as a list of rows (`Table`); each adapter
method becomes a pure function on that list.  Rows are `CasbinRule`
records whose optional fields model nullable columns.
-/

namespace SequelizeAdapter

/-- A row of the `casbin_rule` table.  `id` is the surrogate key assigned
by storage; the adapter itself never sets it (`savePolicyLine` leaves it
unset, and `removePolicy` filters the `id` key out of its predicate).
`v0`..`v5` are the nullable positional argument columns. -/
structure CasbinRule where
  id : Option Nat := none
  ptype : String
  v0 : Option String := none
  v1 : Option String := none
  v2 : Option String := none
  v3 : Option String := none
  v4 : Option String := none
  v5 : Option String := none
deriving Repr, DecidableEq

/-- The stored table: one entry per row, in storage order. -/
abbrev Table := List CasbinRule

/-- The in-memory policy model, as far as the adapter reads it:
the `p` and `g` sections, each an insertion-ordered mapping from a
rule-type marker (`ptype`) to the list of rule tuples. -/
structure Model where
  p : List (String × List (List String))
  g : List (String × List (List String))

/-- `savePolicyLine(ptype, rule)` from the source: assigns `ptype`, then
`v_k := rule[k]` exactly when `rule.length > k`, for `k = 0..5`.
`line.v_k = rule[k]?` captures this: the field is set iff `k < rule.length`. -/
def savePolicyLine (ptype : String) (rule : List String) : CasbinRule :=
  { ptype := ptype
    v0 := rule[0]?
    v1 := rule[1]?
    v2 := rule[2]?
    v3 := rule[3]?
    v4 := rule[4]?
    v5 := rule[5]?}

/-- JS truthiness test used by `loadPolicyLine`'s `.filter(n => n)`:
a nullable string field is truthy iff it is present and non-empty. -/
def truthy : Option String → Bool
  | none => false
  | some s => s != ""

/-- The value list `[line.v0, ..., line.v5].filter(n => n)` that
`loadPolicyLine` joins after the ptype: the truthy fields, in order. -/
def reconstructedTuple (r : CasbinRule) : List String :=
  ([r.v0, r.v1, r.v2, r.v3, r.v4, r.v5].filter truthy).filterMap id

/-- `loadPolicyLine(line, model)` from the source builds the string
`line.ptype + ', ' + [v0..v5].filter(n => n).join(', ')` and feeds it to
the engine's line loader; we model the string it produces. -/
def loadPolicyLine (r : CasbinRule) : String :=
  r.ptype ++ ", " ++ String.intercalate ", " (reconstructedTuple r)

/-- `loadPolicy(model)` reads every row and feeds one reconstructed line
per row to the model loader; we model the list of lines fed, in row order. -/
def loadPolicy (db : Table) : List String :=
  db.map loadPolicyLine

/-- The (ptype, tuple) pairs that `loadPolicy` hands to the model, one per
row: the row's `ptype` together with the joined value list of its line. -/
def loadedPairs (db : Table) : List (String × List String) :=
  db.map (fun r => (r.ptype, reconstructedTuple r))

/-- `dropTable` runs `destroy({where: {}, truncate: true})`: removes every row. -/
def dropTable (_db : Table) : Table := []

/-- `createTable` runs `sync()`: ensures the table exists; no row changes. -/
def createTable (db : Table) : Table := db

/-- `addPolicy(sec, ptype, rule)`: builds the line with `savePolicyLine`
and inserts it (`line.save()`). -/
def addPolicy (db : Table) (_sec ptype : String) (rule : List String) : Table :=
  db ++ [savePolicyLine ptype rule]

/-- `savePolicy(model)` from the source: `dropTable`, `createTable`, then
two nested loops inserting one row per rule, first over the `p` section's
mapping, then over the `g` section's, and finally `return true`. -/
def savePolicy (db : Table) (m : Model) : Table × Bool :=
  let db0 := createTable (dropTable db)
  let db1 := m.p.foldl
    (fun acc e => e.2.foldl (fun acc2 rule => acc2 ++ [savePolicyLine e.1 rule]) acc) db0
  let db2 := m.g.foldl
    (fun acc e => e.2.foldl (fun acc2 rule => acc2 ++ [savePolicyLine e.1 rule]) acc) db1
  (db2, true)

/-- One equality constraint of `removePolicy`'s `where` object: a `v_k`
key appears in the predicate iff `savePolicyLine` assigned that field
(`w = some s`), and then the stored column must equal it exactly; an
unassigned field contributes no key, hence no constraint. -/
def optConstrains (w : Option String) (col : Option String) : Bool :=
  match w with
  | none => true
  | some s => col == some s

/-- The `destroy({where})` predicate of `removePolicy`: the `where` object
holds every key of the built line's `dataValues` except `id`, i.e. `ptype`
and each assigned `v_k`, each matched by equality. -/
def removeMatch (line : CasbinRule) (r : CasbinRule) : Bool :=
  r.ptype == line.ptype
    && optConstrains line.v0 r.v0
    && optConstrains line.v1 r.v1
    && optConstrains line.v2 r.v2
    && optConstrains line.v3 r.v3
    && optConstrains line.v4 r.v4
    && optConstrains line.v5 r.v5

/-- `removePolicy(sec, ptype, rule)`: builds the exact line, then deletes
every row matching the `where` predicate; zero matches is silent success. -/
def removePolicy (db : Table) (_sec ptype : String) (rule : List String) : Table :=
  let line := savePolicyLine ptype rule
  db.filter (fun r => !(removeMatch line r))

/-- `removeFilteredPolicy` unconditionally throws `Error('not implemented')`
before touching storage; we model the unchanged table plus the raised error. -/
def removeFilteredPolicy (db : Table) (_sec _ptype : String) (_fieldIndex : Nat)
    (_fieldValues : List String) : Table × Except String Unit :=
  (db, Except.error "not implemented")

/-- Spec-side field accessor: the `v_k` column of a row, for `k = 0..5`. -/
def vget (r : CasbinRule) : Nat → Option String
  | 0 => r.v0
  | 1 => r.v1
  | 2 => r.v2
  | 3 => r.v3
  | 4 => r.v4
  | 5 => r.v5
  | _ => none

/-- Spec-side field updater: replace the `v_k` column of a row. -/
def setV (r : CasbinRule) : Nat → Option String → CasbinRule
  | 0, o => { r with v0 := o }
  | 1, o => { r with v1 := o }
  | 2, o => { r with v2 := o }
  | 3, o => { r with v3 := o }
  | 4, o => { r with v4 := o }
  | 5, o => { r with v5 := o }
  | _, _ => r

/-- Spec-side view of a section: the rows `savePolicy`'s loops insert for
it, in mapping order then list order. -/
def sectionRows : List (String × List (List String)) → Table
  | [] => []
  | e :: rest => e.2.map (savePolicyLine e.1) ++ sectionRows rest

/-- Spec-side view of a section's contents as (ptype, tuple) pairs, in
mapping order then list order. -/
def sectionPairs : List (String × List (List String)) → List (String × List String)
  | [] => []
  | e :: rest => e.2.map (fun rule => (e.1, rule)) ++ sectionPairs rest

/-- All (ptype, tuple) pairs present in the model, `p` section then `g`. -/
def modelPairs (m : Model) : List (String × List String) :=
  sectionPairs m.p ++ sectionPairs m.g

/-! ### Helper lemmas -/

lemma foldl_push_map {α β : Type} (f : α → β) (l : List α) (acc : List β) :
    l.foldl (fun a2 x => a2 ++ [f x]) acc = acc ++ l.map f := by
  induction l generalizing acc with
  | nil => simp
  | cons x xs ih => simp [ih]

lemma foldl_sections (sec : List (String × List (List String))) (acc : Table) :
    sec.foldl
        (fun a e => e.2.foldl (fun a2 rule => a2 ++ [savePolicyLine e.1 rule]) a) acc
      = acc ++ sectionRows sec := by
  induction sec generalizing acc with
  | nil => simp [sectionRows]
  | cons e rest ih =>
    rw [List.foldl_cons, ih, foldl_push_map (savePolicyLine e.1)]
    simp [sectionRows]

lemma savePolicy_eq (db : Table) (m : Model) :
    savePolicy db m = (sectionRows m.p ++ sectionRows m.g, true) := by
  simp [savePolicy, dropTable, createTable, foldl_sections]

lemma optConstrains_self (w : Option String) : optConstrains w w = true := by
  cases w <;> simp [optConstrains]

lemma intercalate_nil : String.intercalate ", " [] = "" := rfl

lemma truthy_none : truthy none = false := rfl

lemma truthy_empty : truthy (some "") = false := rfl

lemma getElem?_isSome_iff {α : Type} (l : List α) (i : Nat) :
    (l[i]?).isSome ↔ i < l.length := by
  rw [Option.isSome_iff_exists]
  constructor
  · rintro ⟨a, ha⟩
    exact (List.getElem?_eq_some_iff.mp ha).1
  · intro h
    exact ⟨l[i], List.getElem?_eq_some_iff.mpr ⟨h, rfl⟩⟩

lemma optConstrains_iff (w c : Option String) :
    optConstrains w c = true ↔ ∀ s, w = some s → c = some s := by
  cases w <;> simp [optConstrains]

lemma removeMatch_self (line : CasbinRule) : removeMatch line line = true := by
  simp [removeMatch, optConstrains_self]

lemma removeMatch_savePolicyLine_iff (p : String) (rule : List String)
    (r : CasbinRule) :
    removeMatch (savePolicyLine p rule) r = true
      ↔ r.ptype = p ∧ ∀ i, i < 6 → i < rule.length → vget r i = rule[i]? := by
  have step : ∀ (w c : Option String), optConstrains w c = true → w.isSome →
      c = w := by
    intro w c hoc hsome
    obtain ⟨s, hs⟩ := Option.isSome_iff_exists.mp hsome
    rw [hs]
    exact (optConstrains_iff w c).mp hoc s hs
  simp only [removeMatch, savePolicyLine, Bool.and_eq_true, beq_iff_eq]
  constructor
  · rintro ⟨⟨⟨⟨⟨⟨hp, h0⟩, h1⟩, h2⟩, h3⟩, h4⟩, h5⟩
    refine ⟨hp, ?_⟩
    intro i _ hlen
    interval_cases i
    · exact step _ _ h0 ((getElem?_isSome_iff rule 0).mpr hlen)
    · exact step _ _ h1 ((getElem?_isSome_iff rule 1).mpr hlen)
    · exact step _ _ h2 ((getElem?_isSome_iff rule 2).mpr hlen)
    · exact step _ _ h3 ((getElem?_isSome_iff rule 3).mpr hlen)
    · exact step _ _ h4 ((getElem?_isSome_iff rule 4).mpr hlen)
    · exact step _ _ h5 ((getElem?_isSome_iff rule 5).mpr hlen)
  · rintro ⟨hp, hall⟩
    refine ⟨⟨⟨⟨⟨⟨hp, ?_⟩, ?_⟩, ?_⟩, ?_⟩, ?_⟩, ?_⟩
    · rw [optConstrains_iff]
      intro s hs
      exact (hall 0 (by omega) (List.getElem?_eq_some_iff.mp hs).1).trans hs
    · rw [optConstrains_iff]
      intro s hs
      exact (hall 1 (by omega) (List.getElem?_eq_some_iff.mp hs).1).trans hs
    · rw [optConstrains_iff]
      intro s hs
      exact (hall 2 (by omega) (List.getElem?_eq_some_iff.mp hs).1).trans hs
    · rw [optConstrains_iff]
      intro s hs
      exact (hall 3 (by omega) (List.getElem?_eq_some_iff.mp hs).1).trans hs
    · rw [optConstrains_iff]
      intro s hs
      exact (hall 4 (by omega) (List.getElem?_eq_some_iff.mp hs).1).trans hs
    · rw [optConstrains_iff]
      intro s hs
      exact (hall 5 (by omega) (List.getElem?_eq_some_iff.mp hs).1).trans hs

lemma reconstructed_savePolicyLine (p : String) (rule : List String)
    (h6 : rule.length ≤ 6) (hne : ∀ s ∈ rule, s ≠ "") :
    reconstructedTuple (savePolicyLine p rule) = rule := by
  rcases rule with _ | ⟨a, _ | ⟨b, _ | ⟨c, _ | ⟨d, _ | ⟨e, _ | ⟨f, _ | ⟨g, t⟩⟩⟩⟩⟩⟩⟩
  · rfl
  · have ha : a ≠ "" := hne a (by simp)
    simp [reconstructedTuple, savePolicyLine, List.filter_cons, truthy, ha]
  · have ha : a ≠ "" := hne a (by simp)
    have hb : b ≠ "" := hne b (by simp)
    simp [reconstructedTuple, savePolicyLine, List.filter_cons, truthy, ha, hb]
  · have ha : a ≠ "" := hne a (by simp)
    have hb : b ≠ "" := hne b (by simp)
    have hc : c ≠ "" := hne c (by simp)
    simp [reconstructedTuple, savePolicyLine, List.filter_cons, truthy, ha, hb, hc]
  · have ha : a ≠ "" := hne a (by simp)
    have hb : b ≠ "" := hne b (by simp)
    have hc : c ≠ "" := hne c (by simp)
    have hd : d ≠ "" := hne d (by simp)
    simp [reconstructedTuple, savePolicyLine, List.filter_cons, truthy, ha, hb, hc, hd]
  · have ha : a ≠ "" := hne a (by simp)
    have hb : b ≠ "" := hne b (by simp)
    have hc : c ≠ "" := hne c (by simp)
    have hd : d ≠ "" := hne d (by simp)
    have he : e ≠ "" := hne e (by simp)
    simp [reconstructedTuple, savePolicyLine, List.filter_cons, truthy,
      ha, hb, hc, hd, he]
  · have ha : a ≠ "" := hne a (by simp)
    have hb : b ≠ "" := hne b (by simp)
    have hc : c ≠ "" := hne c (by simp)
    have hd : d ≠ "" := hne d (by simp)
    have he : e ≠ "" := hne e (by simp)
    have hf : f ≠ "" := hne f (by simp)
    simp [reconstructedTuple, savePolicyLine, List.filter_cons, truthy,
      ha, hb, hc, hd, he, hf]
  · simp at h6

lemma loadedPairs_append (d1 d2 : Table) :
    loadedPairs (d1 ++ d2) = loadedPairs d1 ++ loadedPairs d2 := by
  simp [loadedPairs]

lemma loadedPairs_sectionRows (sec : List (String × List (List String)))
    (h : ∀ pr ∈ sectionPairs sec, pr.2.length ≤ 6 ∧ ∀ s ∈ pr.2, s ≠ "") :
    loadedPairs (sectionRows sec) = sectionPairs sec := by
  induction sec with
  | nil => rfl
  | cons e rest ih =>
    have hrest : ∀ pr ∈ sectionPairs rest, pr.2.length ≤ 6 ∧ ∀ s ∈ pr.2, s ≠ "" := by
      intro pr hpr
      refine h pr ?_
      simp only [sectionPairs, List.mem_append]
      exact Or.inr hpr
    show loadedPairs (e.2.map (savePolicyLine e.1) ++ sectionRows rest) = _
    rw [loadedPairs_append, ih hrest]
    show _ = e.2.map (fun rule => (e.1, rule)) ++ sectionPairs rest
    congr 1
    unfold loadedPairs
    rw [List.map_map]
    apply List.map_congr_left
    intro rule hrule
    have hp : (e.1, rule) ∈ sectionPairs (e :: rest) := by
      simp only [sectionPairs, List.mem_append, List.mem_map]
      exact Or.inl ⟨rule, hrule, rfl⟩
    obtain ⟨h6, hne⟩ := h _ hp
    show ((savePolicyLine e.1 rule).ptype, reconstructedTuple (savePolicyLine e.1 rule))
      = (e.1, rule)
    rw [reconstructed_savePolicyLine e.1 rule h6 hne]
    rfl

/-! ### Claim theorems -/

/-- C5: `removeFilteredPolicy`, whatever its arguments, raises the
unimplemented-operation error (`Error('not implemented')`) and performs no
row mutation: the stored row set it returns is exactly its input. -/
theorem removeFilteredPolicy_unimplemented (db : Table) (sec ptype : String)
    (fieldIndex : Nat) (fieldValues : List String) :
    removeFilteredPolicy db sec ptype fieldIndex fieldValues
      = (db, Except.error "not implemented") := rfl

/-- C7: `savePolicy` first deletes all existing rows (`dropTable`, which
truncates) and ensures the table, then inserts one row per rule tuple,
iterating the `p` section before the `g` section, each in mapping order and
then list order, and returns `true`. -/
theorem savePolicy_rewrite_order (db : Table) (m : Model) :
    dropTable db = []
      ∧ savePolicy db m = (sectionRows m.p ++ sectionRows m.g, true) :=
  ⟨rfl, savePolicy_eq db m⟩

/-- C8: every row produced by the save path (`savePolicyLine`, used by
`savePolicy` and `addPolicy`) has `ptype` assigned and no gaps among
`v0..v5`: field `v_k` is set exactly when `k < min (tuple length) 6`. -/
theorem savePolicyLine_no_gaps (p : String) (rule : List String) (k : Nat)
    (hk : k < 6) :
    ((vget (savePolicyLine p rule) k).isSome ↔ k < min rule.length 6)
      ∧ (savePolicyLine p rule).ptype = p := by
  refine ⟨?_, rfl⟩
  interval_cases k <;> simp [vget, savePolicyLine, getElem?_isSome_iff]

/-- C8 witness: at `rule = ["alice"]`, `k = 0`, the field `v0` is set and
`ptype` is preserved. -/
theorem savePolicyLine_no_gaps_witness :
    (0 : Nat) < 6
      ∧ (((vget (savePolicyLine "p" ["alice"]) 0).isSome
            ↔ 0 < min (List.length ["alice"]) 6)
          ∧ (savePolicyLine "p" ["alice"]).ptype = "p") :=
  ⟨by decide, savePolicyLine_no_gaps "p" ["alice"] 0 (by decide)⟩

/-- C9 counterexample: `removePolicy` with the empty rule deletes a row
whose `v0` is set (not null), so its predicate does not only match rows
with all of `v0..v5` null. -/
theorem removePolicy_empty_rule_counterexample :
    removePolicy [savePolicyLine "p" ["alice", "data1", "read"]] "p" "p" [] = []
      ∧ (savePolicyLine "p" ["alice", "data1", "read"]).v0 = some "alice" := by
  exact ⟨rfl, rfl⟩

/-- C9 (amended): with an empty rule tuple, `removePolicy`'s predicate
assigns no `v_k` key at all, so it matches every row sharing that `ptype`
regardless of the row's `v0..v5`, and the call deletes every such row. -/
theorem removePolicy_empty_rule_matches_ptype (db : Table) (sec p : String)
    (r : CasbinRule) :
    r ∈ removePolicy db sec p [] ↔ r ∈ db ∧ r.ptype ≠ p := by
  simp [removePolicy, List.mem_filter, removeMatch, savePolicyLine, optConstrains]

/-- C10: `loadPolicyLine` keeps only truthy values: a stored empty-string
field is omitted from the reconstructed line exactly as a null field is,
and a row whose `v0..v5` are all unset or empty produces the line
`ptype ++ ", "`, the separator followed by nothing. -/
theorem loadPolicyLine_truthy_filter :
    (∀ (r : CasbinRule) (i : Nat),
        loadPolicyLine (setV r i (some "")) = loadPolicyLine (setV r i none))
      ∧ ∀ r : CasbinRule,
          (∀ i, i < 6 → vget r i = none ∨ vget r i = some "") →
            loadPolicyLine r = r.ptype ++ ", " := by
  constructor
  · intro r i
    match i with
    | 0 | 1 | 2 | 3 | 4 | 5 =>
      simp [loadPolicyLine, setV, reconstructedTuple, List.filter_cons,
        truthy_none, truthy_empty]
    | n + 6 => rfl
  · intro r h
    have h0 := h 0 (by omega)
    have h1 := h 1 (by omega)
    have h2 := h 2 (by omega)
    have h3 := h 3 (by omega)
    have h4 := h 4 (by omega)
    have h5 := h 5 (by omega)
    simp only [vget] at h0 h1 h2 h3 h4 h5
    rcases h0 with h0 | h0 <;> rcases h1 with h1 | h1 <;> rcases h2 with h2 | h2 <;>
      rcases h3 with h3 | h3 <;> rcases h4 with h4 | h4 <;> rcases h5 with h5 | h5 <;>
        simp [loadPolicyLine, reconstructedTuple, truthy, h0, h1, h2, h3, h4, h5,
          intercalate_nil]

/-- C1 counterexample: for a model holding the single tuple
`["alice", "", "read"]`, the pair is present at save time but absent from
the pairs reproduced by `loadPolicy` after `savePolicy`: the empty-string
element is dropped by the load path's truthiness filter. -/
theorem roundtrip_set_counterexample :
    ("p", ["alice", "", "read"])
        ∈ modelPairs { p := [("p", [["alice", "", "read"]])], g := [] }
      ∧ ("p", ["alice", "", "read"])
          ∉ loadedPairs
              (savePolicy [] { p := [("p", [["alice", "", "read"]])], g := [] }).1 := by
  decide

/-- C1 (amended): for every model whose tuples all have length at most 6
and contain no empty-string element, `savePolicy` followed by `loadPolicy`
reproduces, as a set of (ptype, tuple) pairs, exactly the pairs present in
the model at save time, independent of row order. -/
theorem savePolicy_loadPolicy_set_roundtrip (db : Table) (m : Model)
    (h : ∀ pr ∈ modelPairs m, pr.2.length ≤ 6 ∧ ∀ s ∈ pr.2, s ≠ "") :
    ∀ pr, pr ∈ loadedPairs (savePolicy db m).1 ↔ pr ∈ modelPairs m := by
  have hp : ∀ pr ∈ sectionPairs m.p, pr.2.length ≤ 6 ∧ ∀ s ∈ pr.2, s ≠ "" := by
    intro pr hpr
    refine h pr ?_
    simp only [modelPairs, List.mem_append]
    exact Or.inl hpr
  have hg : ∀ pr ∈ sectionPairs m.g, pr.2.length ≤ 6 ∧ ∀ s ∈ pr.2, s ≠ "" := by
    intro pr hpr
    refine h pr ?_
    simp only [modelPairs, List.mem_append]
    exact Or.inr hpr
  intro pr
  rw [savePolicy_eq]
  show pr ∈ loadedPairs (sectionRows m.p ++ sectionRows m.g) ↔ _
  rw [loadedPairs_append, loadedPairs_sectionRows m.p hp,
    loadedPairs_sectionRows m.g hg, modelPairs]

/-- C1 witness: the round trip applied to a concrete two-section model. -/
theorem savePolicy_loadPolicy_set_roundtrip_witness :
    ("p", ["alice", "data1", "read"])
        ∈ loadedPairs
            (savePolicy []
              { p := [("p", [["alice", "data1", "read"]])],
                g := [("g", [["alice", "admin"]])] }).1
      ↔ ("p", ["alice", "data1", "read"])
          ∈ modelPairs
              { p := [("p", [["alice", "data1", "read"]])],
                g := [("g", [["alice", "admin"]])] } :=
  savePolicy_loadPolicy_set_roundtrip []
    { p := [("p", [["alice", "data1", "read"]])],
      g := [("g", [["alice", "admin"]])] }
    (by decide) ("p", ["alice", "data1", "read"])

/-- C2 counterexample: the tuple `["alice", "", "read"]` has length 3 ≤ 6,
yet after `addPolicy` the pair `loadPolicy` reproduces is
`("p", ["alice", "read"])`: the stored empty-string element — a set field,
so not trimmed as an unset trailing field — is dropped. -/
theorem addPolicy_roundtrip_counterexample :
    loadedPairs (addPolicy [] "p" "p" ["alice", "", "read"])
        = [("p", ["alice", "read"])]
      ∧ ("p", ["alice", "", "read"])
          ∉ loadedPairs (addPolicy [] "p" "p" ["alice", "", "read"]) := by
  decide

/-- C2 (amended): for every tuple of length 0..6 whose elements are all
non-empty strings, saving via `addPolicy` and loading via `loadPolicy`
appends exactly the pair of the original ptype and tuple; and the concrete
example feeds exactly the line `"p, alice, data1, read"` to the model
loader. -/
theorem addPolicy_loadPolicy_tuple_roundtrip :
    (∀ (db : Table) (sec p : String) (rule : List String),
        rule.length ≤ 6 → (∀ s ∈ rule, s ≠ "") →
          loadedPairs (addPolicy db sec p rule) = loadedPairs db ++ [(p, rule)])
      ∧ loadPolicy (addPolicy [] "p" "p" ["alice", "data1", "read"])
          = ["p, alice, data1, read"] := by
  constructor
  · intro db sec p rule h6 hne
    show loadedPairs (db ++ [savePolicyLine p rule]) = _
    rw [loadedPairs_append]
    show _ ++ [((savePolicyLine p rule).ptype, reconstructedTuple (savePolicyLine p rule))]
      = _
    rw [reconstructed_savePolicyLine p rule h6 hne]
    rfl
  · rfl

/-- C2 witness: the amended round trip applied at a concrete tuple. -/
theorem addPolicy_loadPolicy_tuple_roundtrip_witness :
    loadedPairs (addPolicy [] "p" "p" ["alice", "data1", "read"])
      = loadedPairs [] ++ [("p", ["alice", "data1", "read"])] :=
  addPolicy_loadPolicy_tuple_roundtrip.1 [] "p" "p" ["alice", "data1", "read"]
    (by decide) (by decide)

/-- C3: `removePolicy` deletes exactly the rows on which `ptype` and every
populated `v0..v5` field of the rule's positional mapping agree: a row
survives iff it was present and fails that conjunction, and positions at or
beyond the rule's length place no constraint on the row (the `id` field
never does). -/
theorem removePolicy_mem_iff (db : Table) (sec p : String) (rule : List String)
    (r : CasbinRule) :
    r ∈ removePolicy db sec p rule
      ↔ r ∈ db
          ∧ ¬(r.ptype = p ∧ ∀ i, i < 6 → i < rule.length → vget r i = rule[i]?) := by
  rw [removePolicy, List.mem_filter]
  constructor
  · rintro ⟨hmem, hpred⟩
    refine ⟨hmem, ?_⟩
    intro hmatch
    rw [← removeMatch_savePolicyLine_iff p rule r] at hmatch
    simp [hmatch] at hpred
  · rintro ⟨hmem, hnot⟩
    refine ⟨hmem, ?_⟩
    rw [← removeMatch_savePolicyLine_iff p rule r] at hnot
    simp only [Bool.not_eq_true']
    exact Bool.not_eq_true _ ▸ Bool.of_not_eq_true hnot

/-- C4 counterexample: inserting the exact pair twice via `addPolicy` and
then calling `removePolicy` once leaves zero rows, not one — the delete
removes every matching row, not one per duplicate insertion. -/
theorem remove_after_duplicate_insert_counterexample :
    removePolicy
        (addPolicy (addPolicy [] "p" "p" ["alice", "data1", "read"])
          "p" "p" ["alice", "data1", "read"])
        "p" "p" ["alice", "data1", "read"] = []
      ∧ (removePolicy
            (addPolicy (addPolicy [] "p" "p" ["alice", "data1", "read"])
              "p" "p" ["alice", "data1", "read"])
            "p" "p" ["alice", "data1", "read"]).length ≠ 1 := by
  decide

/-- C4 (amended): `addPolicy` adds one row equal to the exact line each
time, and a single `removePolicy` call on the pair deletes every matching
row: the count of exact-pair rows drops to zero, however many duplicates
were inserted. -/
theorem removePolicy_removes_all_duplicates (db : Table) (sec p : String)
    (rule : List String) :
    (addPolicy db sec p rule).count (savePolicyLine p rule)
        = db.count (savePolicyLine p rule) + 1
      ∧ (removePolicy db sec p rule).count (savePolicyLine p rule) = 0 := by
  constructor
  · simp [addPolicy]
  · rw [List.count_eq_zero]
    intro hmem
    have hpred := (List.mem_filter.mp hmem).2
    simp [removeMatch_self] at hpred

/-- C6: when no row of the table matches `removePolicy`'s delete
predicate, the call is a silent no-op: the table (hence its row count) is
unchanged, and no error is raised — the operation is total in the model. -/
theorem removePolicy_no_match_noop (db : Table) (sec p : String)
    (rule : List String)
    (h : ∀ r ∈ db, removeMatch (savePolicyLine p rule) r = false) :
    removePolicy db sec p rule = db := by
  rw [removePolicy, List.filter_eq_self]
  intro r hr
  simp [h r hr]

/-- C6 witness: removing a never-inserted pair from a one-row table
changes nothing. -/
theorem removePolicy_no_match_noop_witness :
    removePolicy [savePolicyLine "p" ["bob", "data2", "write"]] "p" "p" ["alice"]
      = [savePolicyLine "p" ["bob", "data2", "write"]] :=
  removePolicy_no_match_noop [savePolicyLine "p" ["bob", "data2", "write"]]
    "p" "p" ["alice"] (by decide)

/-- C10 witness: a row with `v0` the empty string and the other fields
null produces exactly the line `"p, "`. -/
theorem loadPolicyLine_truthy_filter_witness :
    loadPolicyLine
        { id := none, ptype := "p", v0 := some "", v1 := none, v2 := none,
          v3 := none, v4 := none, v5 := none } = "p, " := by
  rw [loadPolicyLine_truthy_filter.2
    { id := none, ptype := "p", v0 := some "", v1 := none, v2 := none,
      v3 := none, v4 := none, v5 := none } (by decide)]
  rfl

end SequelizeAdapter
